import Mathlib

/-!
Verification development for the IADS (Integrated Adaptive Detection
System) Ryu application.  The Python modules `modules/aps.py`,
`modules/em.py` and `config.py` are shallowly embedded below: NumPy
arrays become functions `Fin n → ℚ` and `Matrix (Fin n) (Fin n) ℚ`,
Python dicts keyed by strategy names become total functions out of
`String`, floating point numbers become rationals, and mutation becomes
explicit state passing.  The repository modules `modules/esm.py`,
`modules/uq.py` and `utils/distributions.py` are referenced by the code
but absent from the source tree; the small pieces of them that the
verified claims depend on are modelled from the specification and are
marked as such in their doc comments.
-/

namespace IADS

/-! ### Configuration (`config.py`) -/

/-- `APS_CONFIG['max_uncertainty']` (config.py line 55). -/
def max_uncertainty : ℚ := 2

/-- `APS_CONFIG['max_stability']` (config.py line 56). -/
def max_stability : ℚ := 5

/-- `APS_CONFIG['target_stability']` (config.py line 57). -/
def target_stability : ℚ := 1

/-- `APS_CONFIG['kp']` (config.py line 58). -/
def kp_default : ℚ := 1 / 10

/-- `SYSTEM_CONFIG['probe_interval_min']` (config.py line 15). -/
def probe_interval_min : ℚ := 1

/-- `SYSTEM_CONFIG['probe_interval_max']` (config.py line 16). -/
def probe_interval_max : ℚ := 60

/-- `SYSTEM_CONFIG['top_k']` (config.py line 13). -/
def top_k_default : ℕ := 5

/-- `list(CMAB_STRATEGIES.values())` (config.py lines 68-73), in Python
dict insertion order. -/
def strategies : List String :=
  ["focus_uncertainty", "highfreq_unstable", "coverage_balancer", "event_trigger"]

/-! ### CMAB (`modules/aps.py` lines 10-112)

Per-arm parameters live in dictionaries keyed by the strategy name; we
model them as total functions out of `String` (only the four strategy
names are ever read).  `np.random.multivariate_normal` draws are not
expressible in a pure embedding, so `select_strategy` takes the sampled
`θ` vectors as an explicit argument. -/

/-- A vector of `n` rationals (a NumPy 1-d array of length `n`). -/
abbrev Vec (n : ℕ) := Fin n → ℚ

/-- Dot product `np.dot` of two vectors. -/
def dotQ {n : ℕ} (a b : Vec n) : ℚ := ∑ i, a i * b i

/-- The mathematical matrix inverse, as computed by `np.linalg.inv` on a
nonsingular matrix: `A⁻¹ = det(A)⁻¹ • adjugate(A)` (executable form of
Mathlib's nonsingular inverse). -/
def matInv {n : ℕ} (A : Matrix (Fin n) (Fin n) ℚ) : Matrix (Fin n) (Fin n) ℚ :=
  A.det⁻¹ • A.adjugate

/-- One record appended to `CMAB.history` by `select_strategy`
(aps.py lines 62-67). -/
structure HistoryEntry (n : ℕ) where
  context : Vec n
  strategy : String
  scores : String → ℚ
  sampledTheta : String → Vec n

/-- The mutable state of class `CMAB` (aps.py lines 13-32). -/
structure CMAB (n : ℕ) where
  mu : String → Vec n
  Sigma : String → Matrix (Fin n) (Fin n) ℚ
  Sigma_inv : String → Matrix (Fin n) (Fin n) ℚ
  history : List (HistoryEntry n)
  selected_strategy : Option String

/-- `CMAB.__init__` (aps.py lines 13-32): `mu[s] = 0`, `Sigma[s] = I`,
`Sigma_inv[s] = I`, empty history, no selected strategy. -/
def CMAB.init (n : ℕ) : CMAB n :=
  { mu := fun _ => 0
    Sigma := fun _ => 1
    Sigma_inv := fun _ => 1
    history := []
    selected_strategy := none }

/-- Python's `max(scores, key=scores.get)` over the keys of a dict built
by inserting `keys` in order: the first key attaining the maximal score. -/
def argmaxFirst (score : String → ℚ) : List String → Option String
  | [] => none
  | s :: rest => some (rest.foldl (fun best x => if score x > score best then x else best) s)

/-- `CMAB.select_strategy` (aps.py lines 34-69).  `samples s` is the
vector drawn from `N(mu[s], Sigma[s])` for arm `s`; scoring and argmax
follow the code, and the round is appended to `history`. -/
def CMAB.select_strategy {n : ℕ} (cm : CMAB n) (context : Vec n)
    (samples : String → Vec n) : CMAB n :=
  let scores : String → ℚ := fun s => dotQ context (samples s)
  match argmaxFirst scores strategies with
  | none => cm
  | some sel =>
    { cm with
      selected_strategy := some sel
      history := cm.history ++
        [{ context := context, strategy := sel, scores := scores, sampledTheta := samples }] }

/-- `CMAB.update` (aps.py lines 71-94).  Note the order of operations in
the source: `Sigma_inv[strategy]` is reassigned first (line 87), and the
mean update (lines 91-94) then reads the **already updated**
`Sigma_inv[strategy]` together with the old `mu[strategy]`. -/
def CMAB.update {n : ℕ} (cm : CMAB n) (context : Vec n) (reward : ℚ)
    (noise_var : ℚ) : CMAB n :=
  match cm.selected_strategy with
  | none => cm
  | some strat =>
    let newInv := cm.Sigma_inv strat + (1 / noise_var) • Matrix.vecMulVec context context
    let newSigma := matInv newInv
    let newMu := newSigma.mulVec (newInv.mulVec (cm.mu strat) + (1 / noise_var) • (reward • context))
    { cm with
      Sigma_inv := Function.update cm.Sigma_inv strat newInv
      Sigma := Function.update cm.Sigma strat newSigma
      mu := Function.update cm.mu strat newMu }

/-- The mean update exactly as the specification words it
(spec §4.3.1): `μ_a ← Σ_a_new · (Λ_a_old · μ_a_old + (1/ν) c · r)`,
with `Λ_a_old` the precision **before** the update. -/
def specMeanUpdate {n : ℕ} (cm : CMAB n) (strat : String) (context : Vec n)
    (reward : ℚ) (noise_var : ℚ) : Vec n :=
  (matInv (cm.Sigma_inv strat + (1 / noise_var) • Matrix.vecMulVec context context)).mulVec
    ((cm.Sigma_inv strat).mulVec (cm.mu strat) + (1 / noise_var) • (reward • context))

/-- Concrete CMAB instance used to evaluate the update at a reachable
state: `CMAB(n_features=1)` right after a selection chose the first arm
(`select_strategy` sets `selected_strategy`; the history record is
irrelevant to `update` and omitted from this instance). -/
def cmabSel1 : CMAB 1 :=
  { CMAB.init 1 with selected_strategy := some "focus_uncertainty" }

/-- The all-ones context vector of length 1 (`np.array([1.0])`). -/
def ctx1 : Vec 1 := fun _ => 1

/-- `cmabSel1` after one reward update with context `[1]`, reward `1`,
noise variance `1`: precision `[[2]]`, covariance `[[1/2]]`, mean `[1/2]`. -/
def cmabSel1' : CMAB 1 := cmabSel1.update ctx1 1 1

/-! ### Entity states and the ESM (modelled; `modules/esm.py` is absent
from the source tree) -/

/-- Modelled from the spec: `modules/esm.py` is missing from the source
tree.  Per §3 of the spec an `EntityState` carries a distribution, a
stability value `S ∈ [0, max_stability]` (clamped window variance), a
probe interval and probe timing data.  The scheduling claims only read
the derived scalars, so the state is modelled by the values its
accessors return: `uncertainty` is `U(i,m)` (posterior entropy, treated
as clamped to `[0, max_uncertainty]`), `stability` is the raw `S(i,m)`,
`urgency` is `min((now − last_probe_time)/T, 2.0)` at the current time,
and `probe_interval` is `T`. -/
structure EntityState where
  uncertainty : ℚ
  stability : ℚ
  urgency : ℚ
  probe_interval : ℚ
deriving DecidableEq

/-- Modelled from the spec: accessor `get_uncertainty` of the missing
`modules/esm.py`, returning `U(i,m)`. -/
def EntityState.get_uncertainty (s : EntityState) : ℚ := s.uncertainty

/-- Modelled from the spec: accessor `get_stability` of the missing
`modules/esm.py`.  It returns the **normalized** stability
`S(i,m) / max_stability`: the in-tree consumers read it that way —
aps.py line 198 returns it directly with the comment that it is already
normalized, and em.py line 117 compares it against
`stability_threshold / max_stability`, which the spec's event table
(§4.4) words as `normalized S > 3/max_stability`. -/
def EntityState.get_stability (s : EntityState) : ℚ := s.stability / max_stability

/-- Modelled from the spec: accessor `get_urgency` of the missing
`modules/esm.py`, returning `min((now − last_probe_time)/T, 2.0)`;
modelled as the stored urgency value. -/
def EntityState.get_urgency (s : EntityState) : ℚ := s.urgency

/-- Modelled from the spec: the state table
`(entity_id, metric) → EntityState` owned by the missing
`modules/esm.py`'s `EntityStateManager`, as an association list with
the keys in dict iteration order. -/
structure EntityStateManager where
  state_table : List ((String × String) × EntityState)

/-- Lookup of a key in the state table (the Python dict access
`self.state_table.get((entity_id, metric))`). -/
def lookupState : List ((String × String) × EntityState) → String × String →
    Option EntityState
  | [], _ => none
  | kv :: rest, key => if kv.1 = key then some kv.2 else lookupState rest key

/-- Modelled from the spec: `EntityStateManager.get_state` of the
missing `modules/esm.py`: `get_state(entity_id, metric) → EntityState | ⊥`. -/
def EntityStateManager.get_state (esm : EntityStateManager) (entity_id metric : String) :
    Option EntityState :=
  lookupState esm.state_table (entity_id, metric)

/-- Clamp of an interval into `[probe_interval_min, probe_interval_max]`. -/
def clamp_interval (T : ℚ) : ℚ := max probe_interval_min (min probe_interval_max T)

/-- Modelled from the spec: `EntityStateManager.set_probe_interval` of
the missing `modules/esm.py`: clamps and stores (§4.1). -/
def EntityStateManager.set_probe_interval (esm : EntityStateManager)
    (entity_id metric : String) (T : ℚ) : EntityStateManager :=
  ⟨esm.state_table.map fun kv =>
    if kv.1 = (entity_id, metric) then
      (kv.1, { kv.2 with probe_interval := clamp_interval T })
    else kv⟩

/-- Mean of a list of rationals (`0` on the empty list). -/
def listMean (l : List ℚ) : ℚ := l.sum / l.length

/-- Modelled from the spec: `EntityStateManager.get_context_vector` of
the missing `modules/esm.py` (§4.1): the population means over all
states of `U/max_uncertainty`, `S/max_stability` and `urgency`, plus the
event rate read from the EM, as a 4-vector.  The event rate is passed in
as a parameter. -/
def EntityStateManager.get_context_vector (esm : EntityStateManager)
    (event_rate : ℚ) : Vec 4 :=
  let sts := esm.state_table.map Prod.snd
  fun i =>
    if i = 0 then listMean (sts.map fun s => s.get_uncertainty / max_uncertainty)
    else if i = 1 then listMean (sts.map fun s => s.get_stability)
    else if i = 2 then listMean (sts.map fun s => s.get_urgency)
    else event_rate

/-! ### CTLC (`modules/aps.py` lines 115-162) -/

/-- The state of class `CTLC` (aps.py lines 118-122): gains plus the
interval bounds read from `SYSTEM_CONFIG`. -/
structure CTLC where
  kp : ℚ
  target_stability : ℚ
  min_interval : ℚ
  max_interval : ℚ

/-- `CTLC.__init__(kp, target_stability)` (aps.py lines 118-122). -/
def CTLC.make (kp ts : ℚ) : CTLC :=
  { kp := kp, target_stability := ts
    min_interval := probe_interval_min, max_interval := probe_interval_max }

/-- The CTLC as `ActiveProbingScheduler.__init__` builds it
(aps.py lines 301-304), from `APS_CONFIG['kp']` and
`APS_CONFIG['target_stability']`. -/
def ctlcAPS : CTLC := CTLC.make kp_default target_stability

/-- `CTLC.adjust_probe_interval` (aps.py lines 124-141). -/
def CTLC.adjust_probe_interval (c : CTLC) (current_interval stability : ℚ) : ℚ :=
  let adjustment_factor := 1 + c.kp * (1 - stability / c.target_stability)
  let new_interval := current_interval * adjustment_factor
  max c.min_interval (min c.max_interval new_interval)

/-- One record of the list returned by `CTLC.batch_adjust`
(aps.py lines 154-160). -/
structure Adjustment where
  entity_id : String
  metric : String
  old_interval : ℚ
  new_interval : ℚ
  stability : ℚ
deriving DecidableEq

/-- `CTLC.batch_adjust` (aps.py lines 143-162): sweep every state,
recompute its interval from its stability, and store the new interval
(via `set_probe_interval`) whenever it changed, recording an adjustment. -/
def CTLC.batch_adjust (c : CTLC) (esm₀ : EntityStateManager) :
    EntityStateManager × List Adjustment :=
  esm₀.state_table.foldl
    (fun acc kv =>
      let old_interval := kv.2.probe_interval
      let stability := kv.2.get_stability
      let new_interval := c.adjust_probe_interval old_interval stability
      if new_interval ≠ old_interval then
        (acc.1.set_probe_interval kv.1.1 kv.1.2 new_interval,
         acc.2 ++ [{ entity_id := kv.1.1, metric := kv.1.2,
                     old_interval := old_interval, new_interval := new_interval,
                     stability := stability }])
      else acc)
    (esm₀, [])

/-! ### EM (`modules/em.py`)

The claims about the EM concern the event-trigger bookkeeping of
`check_and_detect_events` / `get_event_trigger`.  The anomaly rules of
`_detect_anomalies` read the state's distribution and the NumPy
mean/standard deviation of the measurement history (the distribution
classes live in the missing `utils/distributions.py`, and the standard
deviation is a real-valued square root), so the detector is abstracted:
`check_and_detect_events` takes the per-state list of detected events as
a function argument and the trigger claims hold for every detector. -/

/-- Class `Event` (em.py lines 10-19); the wall-clock timestamp and the
details dict are not read by any claim. -/
structure Event where
  entity_id : String
  metric : String
  event_type : String
  severity : ℚ
deriving DecidableEq

/-- The state of class `EventManager` (em.py lines 35-57) that the
trigger claims read: the core-entities set, the `event_triggers` dict
and the `events` store.  The dict `{(entity_id, metric): 1.0}` with
`.get(..., 0.0)` reads is modelled as a total function that is `0` where
the dict has no key.  The recent-events window, measurement history and
statistics counters are write-only for the claims and omitted. -/
structure EventManager where
  core_entities : List String
  event_triggers : (String × String) → ℚ
  events : List Event

/-- The body of the inner `for event in events` loop of
`check_and_detect_events` (em.py lines 77-86): store the event, raise
the trigger of `(entity_id, metric)`, and for a core entity whose metric
is `rtt` also raise the `plr` and `bandwidth` triggers.  The source sets
the pair's trigger first and then tests
`entity_id in self.core_entities and metric == 'rtt'`; the trigger
assignment does not touch `core_entities`, so the dict resulting from
the loop body is merged into a single function per branch. -/
def processEvent (entity_id metric : String) (acc : EventManager) (ev : Event) :
    EventManager :=
  if entity_id ∈ acc.core_entities ∧ metric = "rtt" then
    { acc with
      events := acc.events ++ [ev]
      event_triggers := fun p =>
        if p = (entity_id, "bandwidth") then 1
        else if p = (entity_id, "plr") then 1
        else if p = (entity_id, metric) then 1
        else acc.event_triggers p }
  else
    { acc with
      events := acc.events ++ [ev]
      event_triggers := fun p =>
        if p = (entity_id, metric) then 1 else acc.event_triggers p }

/-- The body of the outer loop of `check_and_detect_events`
(em.py lines 74-86): run the detector on one state and process each
detected event. -/
def processState (detect : String → String → EntityState → List Event)
    (acc : EventManager) (kv : (String × String) × EntityState) : EventManager :=
  (detect kv.1.1 kv.1.2 kv.2).foldl (processEvent kv.1.1 kv.1.2) acc

/-- `EventManager.check_and_detect_events` (em.py lines 63-86): clear
all triggers, then sweep the ESM state table raising triggers for every
detected event.  `detect e m st` stands for the list
`self._detect_anomalies(e, m, st)`. -/
def EventManager.check_and_detect_events (em : EventManager)
    (esm : EntityStateManager)
    (detect : String → String → EntityState → List Event) : EventManager :=
  esm.state_table.foldl (processState detect) { em with event_triggers := fun _ => 0 }

/-- `EventManager.get_event_trigger` (em.py lines 175-185):
`self.event_triggers.get((entity_id, metric), 0.0)`. -/
def EventManager.get_event_trigger (em : EventManager) (entity_id metric : String) : ℚ :=
  em.event_triggers (entity_id, metric)

/-- The pairs whose trigger one detected event on `(entity_id, metric)`
raises: the pair itself and, for a core entity with metric `rtt`, the
entity's `plr` and `bandwidth` pairs. -/
def raisedBy (core : List String) (entity_id metric : String) (p : String × String) : Prop :=
  p = (entity_id, metric) ∨
    (entity_id ∈ core ∧ metric = "rtt" ∧
      (p = (entity_id, "plr") ∨ p = (entity_id, "bandwidth")))

instance (core : List String) (e m : String) (p : String × String) :
    Decidable (raisedBy core e m p) := by
  unfold raisedBy; infer_instance

/-! ### PRIO (`modules/aps.py` lines 165-288) and UQ tasks -/

/-- Modelled from the spec: class `Task` of the missing
`modules/uq.py` (§3): immutable identity `(entity_id, metric)` plus the
cached `eig`. -/
structure Task where
  entity_id : String
  metric : String
  eig : ℚ
deriving DecidableEq

/-- Modelled from the spec: the task pool owned by the missing
`modules/uq.py`'s `UncertaintyQuantifier`; `select_tasks` reads only
`self.uq.task_pool`. -/
structure UncertaintyQuantifier where
  task_pool : List Task

/-- `APS_CONFIG['priority_weights']` (config.py lines 59-64). -/
structure Weights where
  eig : ℚ
  urgency : ℚ
  policy_match : ℚ
  event_trig : ℚ

/-- The default priority weights `{0.4, 0.3, 0.2, 0.1}`. -/
def aps_weights : Weights :=
  { eig := 2 / 5, urgency := 3 / 10, policy_match := 1 / 5, event_trig := 1 / 10 }

/-- The state of class `PRIO` (aps.py lines 168-172). -/
structure PRIO where
  weights : Weights

/-- `PRIO()` with `weights=None` (aps.py lines 168-172): the configured
default weights. -/
def PRIO.default : PRIO := { weights := aps_weights }

/-- `PRIO.calculate_policy_match` (aps.py lines 174-208).  The branches
compare the selected strategy against the `CMAB_STRATEGIES` values. -/
def PRIO.calculate_policy_match (task : Task) (selected_strategy : String)
    (esm : EntityStateManager) (event_triggered : Bool) : ℚ :=
  match esm.get_state task.entity_id task.metric with
  | none => 0
  | some state =>
    if selected_strategy = "focus_uncertainty" then
      state.get_uncertainty / max_uncertainty
    else if selected_strategy = "highfreq_unstable" then
      state.get_stability
    else if selected_strategy = "coverage_balancer" then 1
    else if selected_strategy = "event_trigger" then
      if event_triggered then 1 else 0
    else 0

/-- `PRIO.calculate_priority` (aps.py lines 210-230); the unused `task`
parameter of the Python method is dropped. -/
def PRIO.calculate_priority (p : PRIO) (eig urgency policy_match event_trig : ℚ) : ℚ :=
  p.weights.eig * eig + p.weights.urgency * urgency +
    p.weights.policy_match * policy_match + p.weights.event_trig * event_trig

/-- The per-task dict appended to `task_priorities`
(aps.py lines 273-282), with the `components` sub-dict flattened. -/
structure ScoredTask where
  task : Task
  priority : ℚ
  eig : ℚ
  urgency : ℚ
  policy_match : ℚ
  event_trig : ℚ
deriving DecidableEq

/-- The loop body of `select_top_k` (aps.py lines 248-282) for one task:
`none` when the task's `(entity_id, metric)` has no ESM state (the
`continue` on line 254), otherwise the scored task. -/
def PRIO.score_task (p : PRIO) (esm : EntityStateManager)
    (em : Option EventManager) (selected_strategy : String) (task : Task) :
    Option ScoredTask :=
  match esm.get_state task.entity_id task.metric with
  | none => none
  | some state =>
    let eig := task.eig
    let urgency := state.get_urgency
    let event_trig : ℚ :=
      match em with
      | none => 0
      | some em => em.get_event_trigger task.entity_id task.metric
    let policy_match :=
      PRIO.calculate_policy_match task selected_strategy esm (decide (0 < event_trig))
    some { task := task
           priority := p.calculate_priority eig urgency policy_match event_trig
           eig := eig, urgency := urgency
           policy_match := policy_match, event_trig := event_trig }

/-- The comparison under `task_priorities.sort(key=..., reverse=True)`
(aps.py line 285): descending priority. -/
def prioRel (a b : ScoredTask) : Prop := b.priority ≤ a.priority

instance : DecidableRel prioRel := fun a b =>
  inferInstanceAs (Decidable (b.priority ≤ a.priority))

instance : IsTotal ScoredTask prioRel := ⟨fun a b => le_total b.priority a.priority⟩

instance : IsTrans ScoredTask prioRel := ⟨fun _ _ _ h1 h2 => le_trans h2 h1⟩

/-- `PRIO.select_top_k` (aps.py lines 232-288): score the pool (states
missing from ESM are skipped), sort by priority descending and keep the
first `k`.  Python's `list.sort` is stable, so its descending run equals
any stable sort under the total preorder `prioRel`; insertion sort with
`prioRel` is such a stable sort and produces the same list. -/
def PRIO.select_top_k (p : PRIO) (task_pool : List Task)
    (esm : EntityStateManager) (em : Option EventManager)
    (selected_strategy : String) (k : ℕ) : List ScoredTask :=
  ((task_pool.filterMap (p.score_task esm em selected_strategy)).insertionSort prioRel).take k

/-! ### ActiveProbingScheduler (`modules/aps.py` lines 291-367) -/

/-- The state of class `ActiveProbingScheduler` (aps.py lines 294-312):
the wired ESM / UQ / EM references and the CMAB / CTLC / PRIO
sub-engines.  The `stats` counters are not read by any claim and are
omitted.  The CMAB has the default `n_features=4`. -/
structure ActiveProbingScheduler where
  esm : EntityStateManager
  uq : UncertaintyQuantifier
  em : Option EventManager
  cmab : CMAB 4
  ctlc : CTLC
  prio : PRIO

/-- The record returned by `select_tasks` (aps.py lines 349-354). -/
structure SelectResult where
  tasks : List ScoredTask
  strategy : String
  context : Vec 4
  interval_adjustments : List Adjustment

/-- `ActiveProbingScheduler.select_tasks` (aps.py lines 314-354):
context from ESM, CMAB strategy selection (Thompson draws passed in as
`samples`, the EM event rate feeding the context as `event_rate`), the
CTLC sweep over the ESM, then the PRIO top-K over UQ's pool against the
swept ESM.  Returns the mutated scheduler plus the result dict. -/
def ActiveProbingScheduler.select_tasks (aps : ActiveProbingScheduler)
    (samples : String → Vec 4) (event_rate : ℚ) (k : ℕ) :
    ActiveProbingScheduler × SelectResult :=
  let context := aps.esm.get_context_vector event_rate
  let cmab' := aps.cmab.select_strategy context samples
  let selected_strategy := cmab'.selected_strategy.getD ""
  let ba := aps.ctlc.batch_adjust aps.esm
  let selected_tasks := aps.prio.select_top_k aps.uq.task_pool ba.1 aps.em selected_strategy k
  ({ aps with esm := ba.1, cmab := cmab' },
   { tasks := selected_tasks, strategy := selected_strategy, context := context
     interval_adjustments := ba.2 })

/-- `ActiveProbingScheduler.update_reward` (aps.py lines 356-359): the
context is recomputed from the ESM **at update time** and handed to
`CMAB.update` with the default noise variance 1. -/
def ActiveProbingScheduler.update_reward (aps : ActiveProbingScheduler)
    (event_rate reward : ℚ) : ActiveProbingScheduler :=
  { aps with cmab := aps.cmab.update (aps.esm.get_context_vector event_rate) reward 1 }

/-! ### Concrete fixtures for witnesses and counterexamples -/

/-- A one-state ESM: link `1-1:2-1`, metric `rtt`, stability `0`,
probe interval `10`. -/
def esmW6 : EntityStateManager :=
  ⟨[(("1-1:2-1", "rtt"),
     { uncertainty := 1, stability := 0, urgency := 0, probe_interval := 10 })]⟩

/-- The adjustment a CTLC sweep over `esmW6` records: stable state, so
the interval grows from `10` to `11`. -/
def adjW6 : Adjustment :=
  { entity_id := "1-1:2-1", metric := "rtt", old_interval := 10
    new_interval := 11, stability := 0 }

/-- A task on link `1-1:2-1`, metric `rtt`, cached EIG `1/2`. -/
def taskW3 : Task := { entity_id := "1-1:2-1", metric := "rtt", eig := 1 / 2 }

/-- A state with raw stability `2`. -/
def stW3 : EntityState :=
  { uncertainty := 1, stability := 2, urgency := 0, probe_interval := 10 }

/-- An ESM holding `stW3` under `taskW3`'s key. -/
def esmW3 : EntityStateManager := ⟨[(("1-1:2-1", "rtt"), stW3)]⟩

/-- Task on entity `A` with EIG `1/2`. -/
def taskA5 : Task := { entity_id := "A", metric := "rtt", eig := 1 / 2 }

/-- Task on entity `B` with EIG `0`. -/
def taskB5 : Task := { entity_id := "B", metric := "rtt", eig := 0 }

/-- Entity `A`'s state: urgency `0`; raw stability `5` keeps a CTLC
sweep a no-op (`S/S_target = 1`, interval unchanged). -/
def stA5 : EntityState :=
  { uncertainty := 0, stability := 5, urgency := 0, probe_interval := 10 }

/-- Entity `B`'s state: urgency `2/3`, raw stability `5`. -/
def stB5 : EntityState :=
  { uncertainty := 0, stability := 5, urgency := 2 / 3, probe_interval := 10 }

/-- ESM for the tie-break scenario: entity `A`'s state has urgency `0`,
entity `B`'s state has urgency `2/3`, so under `coverage_balancer`
both tasks score priority `2/5`. -/
def esmW5 : EntityStateManager :=
  ⟨[(("A", "rtt"), stA5), (("B", "rtt"), stB5)]⟩

/-- The scored entry of `taskB5` in the tie-break scenario. -/
def scB5 : ScoredTask :=
  { task := taskB5, priority := 2 / 5, eig := 0, urgency := 2 / 3
    policy_match := 1, event_trig := 0 }

/-- The scored entry of `taskA5` in the tie-break scenario. -/
def scA5 : ScoredTask :=
  { task := taskA5, priority := 2 / 5, eig := 1 / 2, urgency := 0
    policy_match := 1, event_trig := 0 }

/-- A task whose `(entity_id, metric)` has no state in `esmW5`. -/
def taskX10 : Task := { entity_id := "X", metric := "plr", eig := 1 }

/-- The scored entry of `taskB5` under `focus_uncertainty` (match `0`
since both uncertainties are `0`): priority `3/10 · 2/3 = 1/5`. -/
def scB4 : ScoredTask :=
  { task := taskB5, priority := 1 / 5, eig := 0, urgency := 2 / 3
    policy_match := 0, event_trig := 0 }

/-- The scored entry of `taskA5` under `focus_uncertainty`:
priority `2/5 · 1/2 = 1/5`. -/
def scA4 : ScoredTask :=
  { task := taskA5, priority := 1 / 5, eig := 1 / 2, urgency := 0
    policy_match := 0, event_trig := 0 }

/-- All-zero Thompson draws: every arm scores `0`, so the Python
`max` picks the first strategy. -/
def samples0 : String → Vec 4 := fun _ _ => 0

/-- A scheduler over `esmW5` with the two-task pool of the tie-break
scenario. -/
def apsW : ActiveProbingScheduler :=
  { esm := esmW5, uq := ⟨[taskB5, taskA5]⟩, em := none
    cmab := CMAB.init 4, ctlc := ctlcAPS, prio := PRIO.default }

/-- ESM at selection time in the context-drift scenario: one state with
uncertainty `0`; its context vector is `(0, 0, 0, 0)`. -/
def esmA2 : EntityStateManager :=
  ⟨[(("L", "rtt"), { uncertainty := 0, stability := 0, urgency := 0, probe_interval := 10 })]⟩

/-- ESM at reward time in the context-drift scenario: the same state
with uncertainty `2`; its context vector is `(1, 0, 0, 0)`. -/
def esmB2 : EntityStateManager :=
  ⟨[(("L", "rtt"), { uncertainty := 2, stability := 0, urgency := 0, probe_interval := 10 })]⟩

/-- The context vector of `esmA2`: all zeroes. -/
def ctxA2 : Vec 4 := fun _ => 0

/-- Scheduler over `esmA2` before the round. -/
def aps0C2 : ActiveProbingScheduler :=
  { esm := esmA2, uq := ⟨[]⟩, em := none
    cmab := CMAB.init 4, ctlc := ctlcAPS, prio := PRIO.default }

/-- Scheduler after the selection round: the CMAB recorded the context
of `esmA2` and selected the first arm. -/
def aps1C2 : ActiveProbingScheduler := (aps0C2.select_tasks samples0 0 5).1

/-- Scheduler after the ESM drifted to `esmB2` between selection and
reward (measurement fusion mutates the shared ESM). -/
def aps2C2 : ActiveProbingScheduler := { aps1C2 with esm := esmB2 }

/-- Every value `adjust_probe_interval` returns lies in
`[probe_interval_min, probe_interval_max]`. -/
theorem adjust_probe_interval_mem (c : CTLC) (T S : ℚ)
    (hmm : c.min_interval ≤ c.max_interval) :
    c.min_interval ≤ c.adjust_probe_interval T S ∧
    c.adjust_probe_interval T S ≤ c.max_interval := by
  unfold CTLC.adjust_probe_interval
  exact ⟨le_max_left _ _, max_le hmm (min_le_left _ _)⟩

/-- Adjustments accumulated by `batch_adjust`'s fold all carry a new
interval in `[probe_interval_min, probe_interval_max]`. -/
theorem batch_adjust_fold_bounds (c : CTLC)
    (hmm : c.min_interval = probe_interval_min ∧ c.max_interval = probe_interval_max) :
    ∀ (l : List ((String × String) × EntityState))
      (acc : EntityStateManager × List Adjustment),
      (∀ x ∈ acc.2, probe_interval_min ≤ x.new_interval ∧ x.new_interval ≤ probe_interval_max) →
      ∀ x ∈ (l.foldl
        (fun acc kv =>
          let old_interval := kv.2.probe_interval
          let stability := kv.2.get_stability
          let new_interval := c.adjust_probe_interval old_interval stability
          if new_interval ≠ old_interval then
            (acc.1.set_probe_interval kv.1.1 kv.1.2 new_interval,
             acc.2 ++ [{ entity_id := kv.1.1, metric := kv.1.2,
                         old_interval := old_interval, new_interval := new_interval,
                         stability := stability }])
          else acc) acc).2,
        probe_interval_min ≤ x.new_interval ∧ x.new_interval ≤ probe_interval_max := by
  intro l
  induction l with
  | nil => intro acc hacc x hx; exact hacc x hx
  | cons kv rest ih =>
    intro acc hacc x hx
    refine ih _ ?_ x hx
    by_cases hne : c.adjust_probe_interval kv.2.probe_interval kv.2.get_stability ≠ kv.2.probe_interval
    · simp only [List.foldl_cons, if_pos hne]
      intro y hy
      rcases List.mem_append.mp hy with hy | hy
      · exact hacc y hy
      · rcases List.mem_singleton.mp hy with rfl
        have := adjust_probe_interval_mem c kv.2.probe_interval kv.2.get_stability
          (by rw [hmm.1, hmm.2]; norm_num [probe_interval_min, probe_interval_max])
        rw [hmm.1, hmm.2] at this
        exact this
    · simp only [List.foldl_cons, if_neg hne]
      exact hacc

/-- C6: with the configured gains (`Kp = 0.1`, `S_target = 1.0`,
`T_min = 1`, `T_max = 60`), `adjust_probe_interval` returns
`clamp(T_old · (1 + Kp · (1 − S / S_target)), T_min, T_max)`, and every
interval a CTLC sweep (`batch_adjust`) stores lies in
`[T_min, T_max]`. -/
theorem ctlc_adjust_formula_and_sweep_bounds :
    (∀ T S : ℚ, ctlcAPS.adjust_probe_interval T S =
      max 1 (min 60 (T * (1 + (1 / 10) * (1 - S / 1))))) ∧
    (∀ esm : EntityStateManager, ∀ a ∈ (ctlcAPS.batch_adjust esm).2,
      1 ≤ a.new_interval ∧ a.new_interval ≤ 60) := by
  constructor
  · intro T S
    rfl
  · intro esm a ha
    have h := batch_adjust_fold_bounds ctlcAPS ⟨rfl, rfl⟩ esm.state_table (esm, [])
      (by intro x hx; simp at hx) a
    rw [show probe_interval_min = 1 from rfl, show probe_interval_max = 60 from rfl] at h
    exact h ha

/-- Witness for `ctlc_adjust_formula_and_sweep_bounds`: the sweep over
`esmW6` stores the in-range interval `11`. -/
theorem ctlc_sweep_witness :
    adjW6 ∈ (ctlcAPS.batch_adjust esmW6).2 ∧
    1 ≤ adjW6.new_interval ∧ adjW6.new_interval ≤ 60 := by
  have hmem : adjW6 ∈ (ctlcAPS.batch_adjust esmW6).2 := by
    norm_num [CTLC.batch_adjust, CTLC.adjust_probe_interval, ctlcAPS, CTLC.make, esmW6,
      EntityState.get_stability, max_stability, kp_default, target_stability,
      probe_interval_min, probe_interval_max, min_def, max_def, adjW6]
  exact ⟨hmem, ctlc_adjust_formula_and_sweep_bounds.2 esmW6 adjW6 hmem⟩

/-! ### EM trigger lemmas and claim C7 -/

/-- Processing one event leaves the core-entity set unchanged. -/
theorem processEvent_core (e m : String) (acc : EventManager) (ev : Event) :
    (processEvent e m acc ev).core_entities = acc.core_entities := by
  unfold processEvent; split <;> rfl

/-- Processing one event detected on `(e, m)` raises exactly the
triggers of `raisedBy` and keeps the rest. -/
theorem processEvent_trig (e m : String) (acc : EventManager) (ev : Event)
    (p : String × String) :
    (processEvent e m acc ev).event_triggers p =
      if raisedBy acc.core_entities e m p then 1 else acc.event_triggers p := by
  unfold processEvent raisedBy
  by_cases hc : e ∈ acc.core_entities ∧ m = "rtt"
  · rw [if_pos hc]
    by_cases h1 : p = (e, "bandwidth") <;> by_cases h2 : p = (e, "plr") <;>
      by_cases h3 : p = (e, m) <;> simp_all
  · rw [if_neg hc]
    by_cases h3 : p = (e, m)
    · simp_all
    · have hfalse : ¬(p = (e, m) ∨
          e ∈ acc.core_entities ∧ m = "rtt" ∧ (p = (e, "plr") ∨ p = (e, "bandwidth"))) := by
        rintro (h | ⟨hc1, hc2, _⟩)
        · exact h3 h
        · exact hc ⟨hc1, hc2⟩
      show (if p = (e, m) then (1 : ℚ) else acc.event_triggers p) = _
      rw [if_neg h3, if_neg hfalse]

/-- The inner event loop leaves the core-entity set unchanged. -/
theorem foldl_processEvent_core (e m : String) :
    ∀ (evs : List Event) (acc : EventManager),
      (evs.foldl (processEvent e m) acc).core_entities = acc.core_entities := by
  intro evs
  induction evs with
  | nil => intro acc; rfl
  | cons ev evs ih =>
    intro acc
    rw [List.foldl_cons, ih, processEvent_core]

/-- The inner event loop raises the `raisedBy` triggers exactly when at
least one event was detected on `(e, m)`. -/
theorem foldl_processEvent_trig (e m : String) (p : String × String) :
    ∀ (evs : List Event) (acc : EventManager),
      (evs.foldl (processEvent e m) acc).event_triggers p =
        if evs ≠ [] ∧ raisedBy acc.core_entities e m p then 1
        else acc.event_triggers p := by
  intro evs
  induction evs with
  | nil => intro acc; simp
  | cons ev evs ih =>
    intro acc
    rw [List.foldl_cons, ih, processEvent_core, processEvent_trig]
    by_cases hr : raisedBy acc.core_entities e m p <;> simp [hr]

/-- Processing one state leaves the core-entity set unchanged. -/
theorem processState_core (detect : String → String → EntityState → List Event)
    (acc : EventManager) (kv : (String × String) × EntityState) :
    (processState detect acc kv).core_entities = acc.core_entities :=
  foldl_processEvent_core _ _ _ _

/-- Processing one state raises exactly the triggers its detected
events raise. -/
theorem processState_trig (detect : String → String → EntityState → List Event)
    (acc : EventManager) (kv : (String × String) × EntityState) (p : String × String) :
    (processState detect acc kv).event_triggers p =
      if detect kv.1.1 kv.1.2 kv.2 ≠ [] ∧ raisedBy acc.core_entities kv.1.1 kv.1.2 p then 1
      else acc.event_triggers p :=
  foldl_processEvent_trig _ _ _ _ _

/-- The detection sweep raises a trigger exactly when some state in the
table raises it. -/
theorem foldl_processState_trig (detect : String → String → EntityState → List Event)
    (p : String × String) :
    ∀ (l : List ((String × String) × EntityState)) (acc : EventManager),
      (l.foldl (processState detect) acc).event_triggers p =
        if ∃ kv ∈ l, detect kv.1.1 kv.1.2 kv.2 ≠ [] ∧
            raisedBy acc.core_entities kv.1.1 kv.1.2 p then 1
        else acc.event_triggers p := by
  intro l
  induction l with
  | nil => intro acc; simp
  | cons kv l ih =>
    intro acc
    rw [List.foldl_cons, ih, processState_core, processState_trig]
    simp only [List.exists_mem_cons_iff]
    by_cases hd : detect kv.1.1 kv.1.2 kv.2 ≠ [] ∧
        raisedBy acc.core_entities kv.1.1 kv.1.2 p <;>
      by_cases ht : ∃ x ∈ l, detect x.1.1 x.1.2 x.2 ≠ [] ∧
        raisedBy acc.core_entities x.1.1 x.1.2 p <;>
      simp [hd, ht]

/-- C7: after `check_and_detect_events`, `get_event_trigger (e, m)` is
`1.0` exactly when an event fired on `(e, m)` in this pass, or `e` is a
core entity that fired an `rtt` event and `m` is `plr` or `bandwidth`;
triggers from earlier passes are cleared, so it is `0.0` everywhere
else — for every initial trigger state and every detector outcome. -/
theorem em_check_triggers_exact (em : EventManager) (esm : EntityStateManager)
    (detect : String → String → EntityState → List Event) (e m : String) :
    (em.check_and_detect_events esm detect).get_event_trigger e m =
      if (∃ kv ∈ esm.state_table, kv.1 = (e, m) ∧ detect e m kv.2 ≠ []) ∨
         (e ∈ em.core_entities ∧ (m = "plr" ∨ m = "bandwidth") ∧
           ∃ kv ∈ esm.state_table, kv.1 = (e, "rtt") ∧ detect e "rtt" kv.2 ≠ [])
      then 1 else 0 := by
  unfold EventManager.check_and_detect_events EventManager.get_event_trigger
  rw [foldl_processState_trig]
  have hiff : (∃ kv ∈ esm.state_table, detect kv.1.1 kv.1.2 kv.2 ≠ [] ∧
      raisedBy em.core_entities kv.1.1 kv.1.2 (e, m)) ↔
      ((∃ kv ∈ esm.state_table, kv.1 = (e, m) ∧ detect e m kv.2 ≠ []) ∨
       (e ∈ em.core_entities ∧ (m = "plr" ∨ m = "bandwidth") ∧
         ∃ kv ∈ esm.state_table, kv.1 = (e, "rtt") ∧ detect e "rtt" kv.2 ≠ [])) := by
    constructor
    · rintro ⟨kv, hkv, hD, hr⟩
      rcases hr with hr | ⟨hcore, hrtt, hp⟩
      · obtain ⟨he, hm⟩ := Prod.mk.injEq _ _ _ _ ▸ hr
        left
        subst he; subst hm
        exact ⟨kv, hkv, rfl, hD⟩
      · right
        rw [hrtt] at hD
        rcases hp with hp | hp
        · obtain ⟨he, hm⟩ := Prod.mk.injEq _ _ _ _ ▸ hp
          subst he; subst hm
          exact ⟨hcore, Or.inl rfl, kv, hkv, by rw [← hrtt], hD⟩
        · obtain ⟨he, hm⟩ := Prod.mk.injEq _ _ _ _ ▸ hp
          subst he; subst hm
          exact ⟨hcore, Or.inr rfl, kv, hkv, by rw [← hrtt], hD⟩
    · rintro (⟨kv, hkv, hk, hD⟩ | ⟨hcore, hm, kv, hkv, hk, hD⟩)
      · have h1 : kv.1.1 = e := by rw [hk]
        have h2 : kv.1.2 = m := by rw [hk]
        refine ⟨kv, hkv, ?_, Or.inl ?_⟩
        · rw [h1, h2]; exact hD
        · rw [h1, h2]
      · have h1 : kv.1.1 = e := by rw [hk]
        have h2 : kv.1.2 = "rtt" := by rw [hk]
        refine ⟨kv, hkv, ?_, Or.inr ⟨by rw [h1]; exact hcore, h2, ?_⟩⟩
        · rw [h1, h2]; exact hD
        · rcases hm with rfl | rfl
          · exact Or.inl (by rw [h1])
          · exact Or.inr (by rw [h1])
  rw [if_congr hiff rfl rfl]

/-! ### PRIO lemmas and claims C3, C4, C5, C10 -/

/-- C3: under the `HIGHFREQ_UNSTABLE` strategy, the policy match of a
task whose `(entity_id, metric)` has an ESM state equals the state's
stability divided by `max_stability = 5`. -/
theorem policy_match_highfreq (task : Task) (esm : EntityStateManager)
    (b : Bool) (st : EntityState)
    (h : esm.get_state task.entity_id task.metric = some st) :
    PRIO.calculate_policy_match task "highfreq_unstable" esm b = st.stability / 5 := by
  simp [ PRIO.calculate_policy_match, h, EntityState.get_stability, max_stability]

/-- Witness for `policy_match_highfreq`: the state with raw stability
`2` gives policy match `2/5`. -/
theorem policy_match_highfreq_witness :
    esmW3.get_state taskW3.entity_id taskW3.metric = some stW3 ∧
    PRIO.calculate_policy_match taskW3 "highfreq_unstable" esmW3 true = stW3.stability / 5 :=
  ⟨by simp [EntityStateManager.get_state, lookupState, esmW3, taskW3],
   policy_match_highfreq taskW3 esmW3 true stW3
     (by simp [EntityStateManager.get_state, lookupState, esmW3, taskW3])⟩

/-- A scored task remembers its task, which must have an ESM state. -/
theorem score_task_some (p : PRIO) (esm : EntityStateManager)
    (em : Option EventManager) (strat : String) (t : Task) (st : ScoredTask)
    (h : p.score_task esm em strat t = some st) :
    st.task = t ∧ (esm.get_state t.entity_id t.metric).isSome := by
  unfold PRIO.score_task at h
  cases hg : esm.get_state t.entity_id t.metric with
  | none => rw [hg] at h; exact absurd h (by simp)
  | some s =>
    rw [hg] at h
    injection h with h2
    constructor
    · rw [← h2]
    · rfl

/-- Every entry of `select_top_k` is the score of some pool task. -/
theorem mem_select_top_k (p : PRIO) (pool : List Task) (esm : EntityStateManager)
    (em : Option EventManager) (strat : String) (k : ℕ) (st : ScoredTask)
    (h : st ∈ p.select_top_k pool esm em strat k) :
    ∃ t ∈ pool, p.score_task esm em strat t = some st := by
  unfold PRIO.select_top_k at h
  have h1 := List.take_subset _ _ h
  rw [List.mem_insertionSort] at h1
  exact List.mem_filterMap.mp h1

/-- `select_top_k` output is sorted by non-increasing priority. -/
theorem select_top_k_sorted_helper (p : PRIO) (pool : List Task)
    (esm : EntityStateManager) (em : Option EventManager) (strat : String) (k : ℕ) :
    (p.select_top_k pool esm em strat k).Pairwise (fun a b => b.priority ≤ a.priority) := by
  have hs : (List.insertionSort prioRel (pool.filterMap (p.score_task esm em strat))).Pairwise
      prioRel := List.sorted_insertionSort prioRel _
  exact List.Pairwise.sublist (List.take_sublist _ _) hs

/-- Scoring `taskB5` in `esmW5` under `coverage_balancer`. -/
theorem score_cb_B :
    PRIO.default.score_task esmW5 none "coverage_balancer" taskB5 = some scB5 := by
  simp [ PRIO.score_task, PRIO.calculate_policy_match, PRIO.calculate_priority, PRIO.default,
    aps_weights, EntityStateManager.get_state, lookupState, esmW5, taskB5, stB5, scB5,
    EntityState.get_urgency, EntityState.get_uncertainty, EntityState.get_stability]
  all_goals norm_num

/-- Scoring `taskA5` in `esmW5` under `coverage_balancer`. -/
theorem score_cb_A :
    PRIO.default.score_task esmW5 none "coverage_balancer" taskA5 = some scA5 := by
  simp [ PRIO.score_task, PRIO.calculate_policy_match, PRIO.calculate_priority, PRIO.default,
    aps_weights, EntityStateManager.get_state, lookupState, esmW5, taskA5, stA5, scA5,
    EntityState.get_urgency, EntityState.get_uncertainty, EntityState.get_stability]
  all_goals norm_num

/-- `taskX10` has no state in `esmW5`, so scoring skips it. -/
theorem score_cb_X :
    PRIO.default.score_task esmW5 none "coverage_balancer" taskX10 = none := by
  simp [ PRIO.score_task, EntityStateManager.get_state, lookupState, esmW5, taskX10]

/-- Scoring `taskB5` in `esmW5` under `focus_uncertainty`. -/
theorem score_fu_B :
    PRIO.default.score_task esmW5 none "focus_uncertainty" taskB5 = some scB4 := by
  simp [ PRIO.score_task, PRIO.calculate_policy_match, PRIO.calculate_priority, PRIO.default,
    aps_weights, EntityStateManager.get_state, lookupState, esmW5, taskB5, stB5, scB4,
    EntityState.get_urgency, EntityState.get_uncertainty, EntityState.get_stability,
    max_uncertainty]
  all_goals norm_num

/-- Scoring `taskA5` in `esmW5` under `focus_uncertainty`. -/
theorem score_fu_A :
    PRIO.default.score_task esmW5 none "focus_uncertainty" taskA5 = some scA4 := by
  simp [ PRIO.score_task, PRIO.calculate_policy_match, PRIO.calculate_priority, PRIO.default,
    aps_weights, EntityStateManager.get_state, lookupState, esmW5, taskA5, stA5, scA4,
    EntityState.get_urgency, EntityState.get_uncertainty, EntityState.get_stability,
    max_uncertainty]
  all_goals norm_num

/-- Evaluating `select_top_k` on the two-task pool under
`coverage_balancer`: the stable sort keeps the pool order `[B, A]`. -/
theorem select_cb_eval :
    PRIO.default.select_top_k [taskB5, taskA5] esmW5 none "coverage_balancer" 10 =
      [scB5, scA5] := by
  have hfm : List.filterMap ( PRIO.default.score_task esmW5 none "coverage_balancer")
      [taskB5, taskA5] = [scB5, scA5] := by
    simp only [List.filterMap_cons, score_cb_B, score_cb_A, List.filterMap_nil]
  have h : prioRel scB5 scA5 := by norm_num [prioRel, scB5, scA5]
  have hsort : List.insertionSort prioRel [scB5, scA5] = [scB5, scA5] := by
    simp only [List.insertionSort, List.orderedInsert, if_pos h]
  unfold PRIO.select_top_k
  rw [hfm, hsort]
  rfl

/-- Evaluating `select_top_k` on the three-task pool (with the
stateless `taskX10`) under `coverage_balancer`. -/
theorem select_cb_eval3 :
    PRIO.default.select_top_k [taskB5, taskA5, taskX10] esmW5 none "coverage_balancer" 10 =
      [scB5, scA5] := by
  have hfm : List.filterMap ( PRIO.default.score_task esmW5 none "coverage_balancer")
      [taskB5, taskA5, taskX10] = [scB5, scA5] := by
    simp only [List.filterMap_cons, score_cb_B, score_cb_A, score_cb_X, List.filterMap_nil]
  have h : prioRel scB5 scA5 := by norm_num [prioRel, scB5, scA5]
  have hsort : List.insertionSort prioRel [scB5, scA5] = [scB5, scA5] := by
    simp only [List.insertionSort, List.orderedInsert, if_pos h]
  unfold PRIO.select_top_k
  rw [hfm, hsort]
  rfl

/-- The CTLC sweep over `esmW5` is a no-op: both states sit at the
target stability, so no interval changes. -/
theorem batch_adjust_esmW5 : ctlcAPS.batch_adjust esmW5 = (esmW5, []) := by
  norm_num [CTLC.batch_adjust, CTLC.adjust_probe_interval, ctlcAPS, CTLC.make, esmW5,
    stA5, stB5, EntityState.get_stability, max_stability, kp_default, target_stability,
    probe_interval_min, probe_interval_max, min_def, max_def]

/-- With all-zero Thompson draws every arm scores `0` and the Python
`max` keeps the first strategy. -/
theorem select_strategy_samples0 (cm : CMAB 4) (context : Vec 4) :
    (cm.select_strategy context samples0).selected_strategy = some "focus_uncertainty" := by
  simp [CMAB.select_strategy, argmaxFirst, strategies, dotQ, samples0]

/-- Evaluating the full `select_tasks` round on `apsW`. -/
theorem select_tasks_apsW :
    (apsW.select_tasks samples0 0 5).2.tasks = [scB4, scA4] := by
  have hfm : List.filterMap ( PRIO.default.score_task esmW5 none "focus_uncertainty")
      [taskB5, taskA5] = [scB4, scA4] := by
    simp only [List.filterMap_cons, score_fu_B, score_fu_A, List.filterMap_nil]
  have h : prioRel scB4 scA4 := by norm_num [prioRel, scB4, scA4]
  have hsort : List.insertionSort prioRel [scB4, scA4] = [scB4, scA4] := by
    simp only [List.insertionSort, List.orderedInsert, if_pos h]
  simp only [ActiveProbingScheduler.select_tasks, apsW, batch_adjust_esmW5,
    select_strategy_samples0, Option.getD_some]
  unfold PRIO.select_top_k
  rw [hfm, hsort]
  rfl

/-- C4: `select_tasks(k)` (through `select_top_k`) returns at most `k`
entries, every returned entry scores a task of UQ's current pool, and
the returned priorities are monotonically non-increasing — for every
scheduler state, Thompson draw, event rate and `k ≥ 0`. -/
theorem aps_select_tasks_sound (aps : ActiveProbingScheduler)
    (samples : String → Vec 4) (event_rate : ℚ) (k : ℕ) :
    (aps.select_tasks samples event_rate k).2.tasks.length ≤ k ∧
    (∀ st ∈ (aps.select_tasks samples event_rate k).2.tasks, st.task ∈ aps.uq.task_pool) ∧
    (aps.select_tasks samples event_rate k).2.tasks.Pairwise
      (fun a b => b.priority ≤ a.priority) := by
  refine ⟨?_, ?_, ?_⟩
  · show (List.take k _).length ≤ k
    rw [List.length_take]
    exact min_le_left _ _
  · intro st hst
    obtain ⟨t, ht, hsc⟩ := mem_select_top_k _ _ _ _ _ _ st hst
    obtain ⟨h1, _⟩ := score_task_some _ _ _ _ _ _ hsc
    rw [h1]
    exact ht
  · exact select_top_k_sorted_helper _ _ _ _ _ _

/-- Witness for `aps_select_tasks_sound`: in the two-task scenario the
first returned entry scores a pool task. -/
theorem aps_select_tasks_sound_witness :
    scB4 ∈ (apsW.select_tasks samples0 0 5).2.tasks ∧
    scB4.task ∈ apsW.uq.task_pool :=
  ⟨by rw [select_tasks_apsW]; exact List.mem_cons_self _ _,
   (aps_select_tasks_sound apsW samples0 0 5).2.1 scB4
     (by rw [select_tasks_apsW]; exact List.mem_cons_self _ _)⟩

/-- C10: a pool task without an ESM state never appears in the
`select_top_k` output, for every strategy and every `k`. -/
theorem select_top_k_excludes_stateless (p : PRIO) (pool : List Task)
    (esm : EntityStateManager) (em : Option EventManager) (strat : String) (k : ℕ)
    (t : Task) (h : esm.get_state t.entity_id t.metric = none) :
    ∀ st ∈ p.select_top_k pool esm em strat k, st.task ≠ t := by
  intro st hst heq
  obtain ⟨t', ht', hsc⟩ := mem_select_top_k _ _ _ _ _ _ st hst
  obtain ⟨h1, h2⟩ := score_task_some _ _ _ _ _ _ hsc
  rw [h1] at heq
  rw [heq] at h2
  rw [h] at h2
  exact absurd h2 (by simp)

/-- Witness for `select_top_k_excludes_stateless`: `taskX10` has no
state in `esmW5` and the returned head differs from it. -/
theorem select_top_k_excludes_stateless_witness :
    esmW5.get_state taskX10.entity_id taskX10.metric = none ∧
    scB5 ∈ PRIO.default.select_top_k [taskB5, taskA5, taskX10] esmW5 none
      "coverage_balancer" 10 ∧
    scB5.task ≠ taskX10 :=
  ⟨by simp [EntityStateManager.get_state, lookupState, esmW5, taskX10],
   by rw [select_cb_eval3]; exact List.mem_cons_self _ _,
   select_top_k_excludes_stateless PRIO.default [taskB5, taskA5, taskX10] esmW5 none
     "coverage_balancer" 10 taskX10
     (by simp [EntityStateManager.get_state, lookupState, esmW5, taskX10])
     scB5 (by rw [select_cb_eval3]; exact List.mem_cons_self _ _)⟩

/-- C5 fails on the code: with two equal-priority tasks, `select_top_k`
keeps the pool order `[B, A]` even though `A` has the strictly larger
EIG — Python's sort is keyed on priority alone, with no EIG or
entity_id tie-break. -/
theorem select_top_k_tie_not_by_eig :
    PRIO.default.select_top_k [taskB5, taskA5] esmW5 none "coverage_balancer" 10 =
      [scB5, scA5] ∧
    scB5.priority = scA5.priority ∧ scB5.eig < scA5.eig :=
  ⟨select_cb_eval, by norm_num [scB5, scA5], by norm_num [scB5, scA5]⟩

/-- Filtering by an exact priority value commutes with `orderedInsert`
under `prioRel`: the inserted element only ever jumps over strictly
larger priorities. -/
theorem filter_orderedInsert_priority (q : ℚ) (x : ScoredTask) :
    ∀ l : List ScoredTask,
      (l.orderedInsert prioRel x).filter (fun y => decide (y.priority = q)) =
        ((x :: l).filter fun y => decide (y.priority = q)) := by
  intro l
  induction l with
  | nil => rfl
  | cons b l ih =>
    by_cases hr : prioRel x b
    · rw [List.orderedInsert, if_pos hr]
    · rw [List.orderedInsert, if_neg hr]
      have hlt : x.priority < b.priority := lt_of_not_le hr
      by_cases hb : b.priority = q
      · by_cases hx : x.priority = q
        · exact absurd (hx.trans hb.symm) (ne_of_lt hlt)
        · simp [List.filter_cons, hb, hx, ih]
      · by_cases hx : x.priority = q <;> simp [List.filter_cons, hb, hx, ih]

/-- Insertion sort under `prioRel` is stable: for each priority value
the filtered subsequence is unchanged. -/
theorem filter_insertionSort_priority (q : ℚ) :
    ∀ l : List ScoredTask,
      (l.insertionSort prioRel).filter (fun y => decide (y.priority = q)) =
        l.filter (fun y => decide (y.priority = q)) := by
  intro l
  induction l with
  | nil => rfl
  | cons a l ih =>
    rw [List.insertionSort, filter_orderedInsert_priority]
    by_cases ha : a.priority = q <;> simp [List.filter_cons, ha, ih]

/-- Filtering preserves the prefix order. -/
theorem isPrefix_filter {l₁ l₂ : List ScoredTask} (f : ScoredTask → Bool)
    (h : l₁ <+: l₂) : l₁.filter f <+: l₂.filter f := by
  obtain ⟨t, rfl⟩ := h
  exact ⟨t.filter f, by simp⟩

/-- C5 amended: `select_top_k` is ordered by non-increasing priority,
and among tasks of equal priority the relative order is their order in
the task pool (the sort is stable); EIG and entity_id take no part in
tie-breaking. -/
theorem select_top_k_order_and_stability (p : PRIO) (pool : List Task)
    (esm : EntityStateManager) (em : Option EventManager) (strat : String) (k : ℕ) :
    (p.select_top_k pool esm em strat k).Pairwise (fun a b => b.priority ≤ a.priority) ∧
    ∀ q : ℚ,
      (p.select_top_k pool esm em strat k).filter (fun st => decide (st.priority = q)) <+:
        (pool.filterMap (p.score_task esm em strat)).filter
          (fun st => decide (st.priority = q)) := by
  refine ⟨select_top_k_sorted_helper _ _ _ _ _ _, ?_⟩
  intro q
  have h1 : (p.select_top_k pool esm em strat k).filter
      (fun st => decide (st.priority = q)) <+:
      ((pool.filterMap (p.score_task esm em strat)).insertionSort prioRel).filter
        (fun st => decide (st.priority = q)) :=
    isPrefix_filter _ ⟨_, List.take_append_drop k _⟩
  rw [filter_insertionSort_priority] at h1
  exact h1

/-! ### Claim C2: the context passed to the reward update -/

/-- C2 amended: `select_tasks` records the selection-time context vector
in the CMAB history, and `update_reward` hands `CMAB.update` the context
vector recomputed from the ESM **at update time** — whatever the ESM
then holds. -/
theorem aps_update_reward_current_context (aps : ActiveProbingScheduler)
    (samples : String → Vec 4) (event_rate : ℚ) (k : ℕ)
    (esm' : EntityStateManager) (er' reward : ℚ) :
    ((aps.select_tasks samples event_rate k).1.cmab.history.map fun h => h.context) =
      (aps.cmab.history.map fun h => h.context) ++ [aps.esm.get_context_vector event_rate] ∧
    ({ (aps.select_tasks samples event_rate k).1 with esm := esm' }.update_reward
        er' reward).cmab =
      (aps.select_tasks samples event_rate k).1.cmab.update
        (esm'.get_context_vector er') reward 1 := by
  constructor
  · show ((aps.cmab.select_strategy (aps.esm.get_context_vector event_rate)
        samples).history.map fun h => h.context) = _
    simp [CMAB.select_strategy, strategies, argmaxFirst]
  · rfl

/-- The context vector of `esmA2` is the zero vector. -/
theorem ctx_esmA2 : esmA2.get_context_vector 0 = ctxA2 := by
  funext i
  fin_cases i <;>
    simp [EntityStateManager.get_context_vector, esmA2, ctxA2, listMean,
      EntityState.get_uncertainty, EntityState.get_stability, EntityState.get_urgency,
      max_uncertainty, max_stability]

/-- The drifted context vector of `esmB2` has first component `1`. -/
theorem ctx_esmB2_zero : esmB2.get_context_vector 0 0 = 1 := by
  simp [EntityStateManager.get_context_vector, esmB2, listMean,
    EntityState.get_uncertainty, max_uncertainty]

/-- After the selection round the CMAB selected the first arm. -/
theorem aps1C2_selected : aps1C2.cmab.selected_strategy = some "focus_uncertainty" :=
  select_strategy_samples0 aps0C2.cmab (aps0C2.esm.get_context_vector 0)

/-- After the selection round the selected arm's precision is still the
identity. -/
theorem aps1C2_Sigma_inv : aps1C2.cmab.Sigma_inv "focus_uncertainty" = 1 := by
  simp [aps1C2, aps0C2, ActiveProbingScheduler.select_tasks, CMAB.select_strategy,
    argmaxFirst, strategies, CMAB.init]

/-- The selection round recorded exactly the context of `esmA2`. -/
theorem aps1C2_history : (aps1C2.cmab.history.map fun h => h.context) = [ctxA2] := by
  simp [aps1C2, aps0C2, ActiveProbingScheduler.select_tasks, CMAB.select_strategy,
    argmaxFirst, strategies, CMAB.init, ctx_esmA2]

/-- The precision entry produced by the reward update (which reads the
drifted ESM). -/
theorem aps2C2_update_entry :
    (aps2C2.update_reward 0 1).cmab.Sigma_inv "focus_uncertainty" 0 0 = 2 := by
  have hc := ctx_esmB2_zero
  simp [ActiveProbingScheduler.update_reward, aps2C2, CMAB.update, aps1C2_selected,
    aps1C2_Sigma_inv, Matrix.add_apply, Matrix.smul_apply, Matrix.one_apply_eq,
    Matrix.vecMulVec_apply, hc]
  norm_num

/-- The precision entry an update with the recorded context would have
produced. -/
theorem aps2C2_recorded_entry :
    (aps2C2.cmab.update ctxA2 1 1).Sigma_inv "focus_uncertainty" 0 0 = 1 := by
  simp [aps2C2, CMAB.update, aps1C2_selected, aps1C2_Sigma_inv, ctxA2,
    Matrix.add_apply, Matrix.smul_apply, Matrix.one_apply_eq, Matrix.vecMulVec_apply]

/-- C2 fails on the code: in the context-drift scenario the round
recorded context `(0,0,0,0)`, the ESM then drifted to a context with
first component `1`, and the reward update's new precision on the
selected arm is the one produced by the drifted context, not by the
recorded one. -/
theorem update_reward_ignores_recorded_context :
    (aps1C2.cmab.history.map fun h => h.context) = [ctxA2] ∧
    (aps2C2.update_reward 0 1).cmab.Sigma_inv "focus_uncertainty" 0 0 = 2 ∧
    (aps2C2.cmab.update ctxA2 1 1).Sigma_inv "focus_uncertainty" 0 0 = 1 ∧
    (aps2C2.update_reward 0 1).cmab.Sigma_inv "focus_uncertainty" ≠
      (aps2C2.cmab.update ctxA2 1 1).Sigma_inv "focus_uncertainty" := by
  refine ⟨aps1C2_history, aps2C2_update_entry, aps2C2_recorded_entry, ?_⟩
  intro heq
  have h4 := congrFun (congrFun heq 0) 0
  rw [aps2C2_update_entry, aps2C2_recorded_entry] at h4
  norm_num at h4

/-- C8: CMAB.update modifies only the selected arm; every other arm's
mean, covariance and precision are unchanged. -/
theorem cmab_update_frame {n : ℕ} (cm : CMAB n) (context : Vec n)
    (reward noise_var : ℚ) (a arm : String)
    (hsel : cm.selected_strategy = some a) (harm : arm ≠ a) :
    (cm.update context reward noise_var).mu arm = cm.mu arm ∧
    (cm.update context reward noise_var).Sigma arm = cm.Sigma arm ∧
    (cm.update context reward noise_var).Sigma_inv arm = cm.Sigma_inv arm := by
  simp [CMAB.update, hsel, Function.update_noteq harm]

/-- Witness for `cmab_update_frame` at a concrete state and arm. -/
theorem cmab_update_frame_witness :
    cmabSel1.selected_strategy = some "focus_uncertainty" ∧
    ("coverage_balancer" : String) ≠ "focus_uncertainty" ∧
    ((cmabSel1.update ctx1 1 1).mu "coverage_balancer" = cmabSel1.mu "coverage_balancer" ∧
     (cmabSel1.update ctx1 1 1).Sigma "coverage_balancer" = cmabSel1.Sigma "coverage_balancer" ∧
     (cmabSel1.update ctx1 1 1).Sigma_inv "coverage_balancer" = cmabSel1.Sigma_inv "coverage_balancer") :=
  ⟨rfl, by decide, cmab_update_frame cmabSel1 ctx1 1 1 _ _ rfl (by decide)⟩

/-- C9: if no arm has ever been selected (`selected_strategy is None`),
CMAB.update is a no-op for every context, reward and noise variance. -/
theorem cmab_update_noop_of_no_selection {n : ℕ} (cm : CMAB n) (context : Vec n)
    (reward noise_var : ℚ) (h : cm.selected_strategy = none) :
    cm.update context reward noise_var = cm := by
  simp [CMAB.update, h]

/-- Witness for `cmab_update_noop_of_no_selection` on the freshly
initialized CMAB. -/
theorem cmab_update_noop_witness :
    (CMAB.init 4).selected_strategy = none ∧
    (CMAB.init 4).update (fun _ => 1) 7 1 = CMAB.init 4 :=
  ⟨rfl, cmab_update_noop_of_no_selection (CMAB.init 4) (fun _ => 1) 7 1 rfl⟩

/-- C1 is a code bug: at the state `cmabSel1'` (precision 2, mean 1/2,
reached from the initial state by one update), a second update with
context `[1]`, reward `0`, noise variance `1` leaves the mean at `1/2`
(because aps.py line 93 multiplies the old mean by the **new** precision
reassigned on line 87), whereas the mean prescribed by the spec formula
`Σ_new · (Λ_old · μ_old + (1/ν) c · r)` — which is also what the source's
own comment on aps.py line 90 states — is `1/3`. -/
theorem cmab_update_mean_divergence :
    (cmabSel1'.update ctx1 0 1).mu "focus_uncertainty" 0 = 1 / 2 ∧
    specMeanUpdate cmabSel1' "focus_uncertainty" ctx1 0 1 0 = 1 / 3 ∧
    (cmabSel1'.update ctx1 0 1).mu "focus_uncertainty" 0 ≠
      specMeanUpdate cmabSel1' "focus_uncertainty" ctx1 0 1 0 := by
  have h1 : (cmabSel1'.update ctx1 0 1).mu "focus_uncertainty" 0 = 1 / 2 := by
    simp [cmabSel1', cmabSel1, CMAB.update, CMAB.init, matInv, ctx1,
      Matrix.mulVec, Matrix.dotProduct, Matrix.vecMulVec, Matrix.det_fin_one,
      Matrix.adjugate_fin_one, Fin.sum_univ_one, Matrix.add_apply,
      Matrix.smul_apply, Matrix.one_apply]
    norm_num
  have h2 : specMeanUpdate cmabSel1' "focus_uncertainty" ctx1 0 1 0 = 1 / 3 := by
    simp [cmabSel1', cmabSel1, specMeanUpdate, CMAB.update, CMAB.init, matInv, ctx1,
      Matrix.mulVec, Matrix.dotProduct, Matrix.vecMulVec, Matrix.det_fin_one,
      Matrix.adjugate_fin_one, Fin.sum_univ_one, Matrix.add_apply,
      Matrix.smul_apply, Matrix.one_apply]
    norm_num
  exact ⟨h1, h2, by rw [h1, h2]; norm_num⟩

end IADS
